import Mathlib

/-!
Verification of the jmongo entity/field resolution engine
(src/entity/entity.go, src/entity/field.go).

The Go code is shallowly embedded: reflect types become an inductive
model-type language, reflect values become an inductive value tree,
the sync.Map cache becomes an association list threaded through
GetOrParse, and Go maps with *EntityField values become association
lists whose stored value is an Option EntityField (none models a nil
pointer).  Functions keep the source names.
-/

set_option maxRecDepth 8192

namespace JMongo

/-- Parsed bson-tag settings, the output of parseTags (the tag parser is
referenced from entity.go but not part of the sources under scrutiny;
fields of the model type carry its output directly).  The members are
the ones the entity code reads: the resolved key name and the skip
flag, plus the inline marker mentioned in commented-out code. -/
structure StructTags where
  Name : String
  Skip : Bool
  Inline : Bool
deriving DecidableEq, Repr

/-- A model of reflect.Type as used by entity.go: slice/array/pointer
wrappers around either a primitive (non-struct) type or a struct type
with a declared name, a package path, an optional CollectionNameSupplier
override, and a list of fields.  Each struct field carries its Go name,
the parsed tag settings for its bson tag, and its own type. -/
inductive GoModelType where
  | prim (name : String)
  | slice (elem : GoModelType)
  | array (elem : GoModelType)
  | ptr (elem : GoModelType)
  | strct (name : String) (pkgPath : String) (collectionNameOverride : Option String)
      (fields : List (String × StructTags × GoModelType))
deriving Repr

/-- modelType.Kind() == reflect.Struct. -/
def GoModelType.isStructKind : GoModelType → Bool
  | .strct _ _ _ _ => true
  | _ => false

/-- The EntityField descriptor built by newField (field.go).  The
member Entity *Entity is commented out in the source struct; entity.go
still reads field.Entity.Fields, so the model keeps exactly that
component as subFields.  The stored accessor closures are modeled
separately by valueOf / reflectOf below, closed over the index list
exactly as setupValuerAndSetter closes over it. -/
inductive EntityField where
  | mk (Name : String) (DBName : String) (Id : Bool) (StructTags : StructTags)
      (FieldType : GoModelType) (index : Int) (subFields : Option (List EntityField))
deriving Repr

def EntityField.Name : EntityField → String
  | .mk n _ _ _ _ _ _ => n

def EntityField.DBName : EntityField → String
  | .mk _ d _ _ _ _ _ => d

def EntityField.Id : EntityField → Bool
  | .mk _ _ b _ _ _ _ => b

def EntityField.subFields : EntityField → Option (List EntityField)
  | .mk _ _ _ _ _ _ s => s

/-- The Entity descriptor (entity.go).  Only the members the claims
touch are modeled; DBNames / PrimaryFields / PrimaryFieldDBNames are
never assigned nor read in the source and are omitted.  Go maps with
*EntityField values are association lists whose stored value is an
Option EntityField: a key mapped to none models a key holding a nil
pointer. -/
structure Entity where
  Name : String
  ModelType : GoModelType
  Collection : String
  PrimaryField : Option EntityField
  Fields : List EntityField
  AllFields : List EntityField
  FieldsByName : List (String × Option EntityField)
  FieldsByDBName : List (String × Option EntityField)
deriving Repr

/-- newField (field.go:26-62).  The inline sub-entity construction is
commented out in the source, so subFields is always none; Id is set
iff the resolved key name is the literal string "_id". -/
def newField (name : String) (ftype : GoModelType) (structTags : StructTags)
    (inlineIndex : List Int) : EntityField :=
  let index : Int :=
    match inlineIndex.getLast? with
    | some i => i
    | none => 0
  .mk name structTags.Name (structTags.Name == "_id") structTags ftype index none

/-- Loop body of extractFields (entity.go:97-133), iterating the struct
fields with their positional index i.  Skipped fields are dropped; each
kept field goes into fields, and into allFields either spliced (when it
carries a sub-entity) or as itself. -/
def extractFieldsGo (index : List Int) :
    List (String × StructTags × GoModelType) → Nat →
    List EntityField × List EntityField
  | [], _ => ([], [])
  | (name, tags, ftype) :: rest, i =>
    let tail := extractFieldsGo index rest (i + 1)
    if tags.Skip then tail
    else
      let cloneIndex := index ++ [(i : Int)]
      let field := newField name ftype tags cloneIndex
      match field.subFields with
      | some sub => (field :: tail.1, sub ++ tail.2)
      | none => (field :: tail.1, field :: tail.2)

/-- extractFields (entity.go:97-133): returns (fields, allFields). -/
def extractFields (modelFields : List (String × StructTags × GoModelType))
    (index : List Int) : List EntityField × List EntityField :=
  extractFieldsGo index modelFields 0

/-- extractIdField (entity.go:135-153): first field marked identity,
searching a sub-entity field list in place of a field that carries one. -/
def extractIdField : List EntityField → Option EntityField
  | [] => none
  | .mk n d b t ft ix (some sub) :: rest =>
    match extractIdField sub with
    | some idField => some idField
    | none => extractIdField rest
  | field :: rest =>
    if field.Id then some field else extractIdField rest

/-- Go map load m[k]: the stored value and the ok flag; a missing key
yields the zero value of *EntityField, which is the nil pointer. -/
def mapLoadOrZero (m : List (String × Option EntityField)) (k : String) :
    Option EntityField × Bool :=
  match m.find? (fun p => p.1 == k) with
  | some p => (p.2, true)
  | none => (none, false)

/-- Go map store m[k] = v: replace an existing binding or append one. -/
def mapStore (m : List (String × Option EntityField)) (k : String)
    (v : Option EntityField) : List (String × Option EntityField) :=
  if (m.find? (fun p => p.1 == k)).isSome then
    m.map (fun p => if p.1 == k then (k, v) else p)
  else m ++ [(k, v)]

/-- Loop of makeFieldsByNameAndByDBName (entity.go:155-171).  For each
field it loads the map entry and, when the key is absent, stores the
loaded value back - which is the zero value (nil pointer), not the
field; the by-DBName map is handled first, as in the source. -/
def makeFieldsGo : List EntityField → List (String × Option EntityField) →
    List (String × Option EntityField) →
    List (String × Option EntityField) × List (String × Option EntityField)
  | [], byName, byDBName => (byName, byDBName)
  | field :: rest, byName, byDBName =>
    let loadDB := mapLoadOrZero byDBName field.DBName
    let byDBName2 := if loadDB.2 then byDBName else mapStore byDBName field.DBName loadDB.1
    let loadName := mapLoadOrZero byName field.Name
    let byName2 := if loadName.2 then byName else mapStore byName field.Name loadName.1
    makeFieldsGo rest byName2 byDBName2

/-- makeFieldsByNameAndByDBName (entity.go:155-171). -/
def makeFieldsByNameAndByDBName (fields : List EntityField) :
    List (String × Option EntityField) × List (String × Option EntityField) :=
  makeFieldsGo fields [] []

/-- Go map load used by LookUpField: some v when the key is present
(v itself may be none, a stored nil pointer), none when absent. -/
def mapLoad (m : List (String × Option EntityField)) (k : String) :
    Option (Option EntityField) :=
  (m.find? (fun p => p.1 == k)).map Prod.snd

/-- Entity.LookUpField (entity.go:180-188): try FieldsByDBName, then
FieldsByName, else nil. -/
def Entity.LookUpField (th : Entity) (name : String) : Option EntityField :=
  match mapLoad th.FieldsByDBName name with
  | some field => field
  | none =>
    match mapLoad th.FieldsByName name with
    | some field => field
    | none => none

/-- Entity.PrimaryKeyDBName (entity.go:190-195). -/
def Entity.PrimaryKeyDBName (th : Entity) : String :=
  match th.PrimaryField with
  | some f => f.DBName
  | none => "_id"

/-- The for-loop stripping Slice/Array/Ptr wrappers (entity.go:42-44
and entity.go:201-203). -/
def unwrapModelType : GoModelType → GoModelType
  | .slice t => unwrapModelType t
  | .array t => unwrapModelType t
  | .ptr t => unwrapModelType t
  | t => t

/-- Modelled from the spec: utils.LowerFirst (the utils package is not
among the sources).  Spec 4.3: the default collection name is the
lowercased-initial form of the declared type name. -/
def lowerFirst (s : String) : String :=
  match s.data with
  | [] => ""
  | c :: cs => String.mk (Char.toLower c :: cs)

/-- The two error conditions of errortype used by the resolver. -/
inductive JError where
  | ErrUnsupportedDataType
  | ErrIdFieldDoesNotExists
deriving DecidableEq, Repr

/-- The sync.Map cache keyed by reflect.Type identity; for the named
struct types that get cached, type identity is the (package path, name)
pair. -/
def typeKey : GoModelType → String × String
  | .strct name pkgPath _ _ => (pkgPath, name)
  | .prim name => ("", name)
  | .slice _ => ("", "slice")
  | .array _ => ("", "array")
  | .ptr _ => ("", "ptr")

abbrev Cache : Type := List ((String × String) × Entity)

def lookupCache (cache : Cache) (t : GoModelType) : Option Entity :=
  (cache.find? (fun p => p.1 == typeKey t)).map Prod.snd

def storeCache (cache : Cache) (t : GoModelType) (e : Entity) : Cache :=
  (typeKey t, e) :: cache

/-- newEntityByModelType (entity.go:40-95).  Faithful to the source:
the extracted idField is required to exist but is never assigned to
PrimaryField (the Entity{} zero value, nil, survives the member
assignments of entity.go:86-92), and AllFields is assigned fields, not
allFields (entity.go:89). -/
def newEntityByModelType (modelType0 : GoModelType) (index : List Int)
    (cache : Cache) : Except JError Entity :=
  let modelType := unwrapModelType modelType0
  match modelType with
  | .strct name pkgPath collectionNameOverride modelFields =>
    match lookupCache cache (.strct name pkgPath collectionNameOverride modelFields) with
    | some s => .ok s
    | none =>
      let collectionName :=
        match collectionNameOverride with
        | some cn => cn
        | none => lowerFirst name
      let extracted := extractFields modelFields index
      match extractIdField extracted.2 with
      | none => .error .ErrIdFieldDoesNotExists
      | some _idField =>
        let maps := makeFieldsByNameAndByDBName extracted.1
        .ok
          { Name := name
            ModelType := .strct name pkgPath collectionNameOverride modelFields
            Collection := collectionName
            PrimaryField := none
            Fields := extracted.1
            AllFields := extracted.1
            FieldsByName := maps.1
            FieldsByDBName := maps.2 }
  | _ => .error .ErrUnsupportedDataType

/-- A caller-supplied dest value: none is the nil interface value, some
t is a value whose reflect type is t. -/
abbrev Dest : Type := Option GoModelType

/-- newEntity (entity.go:29-38): nil check, then resolution of the
value's type with a nil index. -/
def newEntity (dest : Dest) (cache : Cache) : Except JError Entity :=
  match dest with
  | none => .error .ErrUnsupportedDataType
  | some t => newEntityByModelType t [] cache

/-- GetModelType (entity.go:199-205).  reflect.ValueOf(dest).Type()
panics on the nil interface (the zero reflect.Value); none models that
panic. -/
def GetModelType : Dest → Option GoModelType
  | none => none
  | some t => some (unwrapModelType t)

/-- Outcome of a GetOrParse call: a resolved entity, a returned error,
or a runtime panic. -/
inductive GoOutcome where
  | ok (entity : Entity)
  | err (e : JError)
  | panicked
deriving Repr

/-- GetOrParse (entity.go:208-236), sequential semantics.  The third
component counts executions of the resolution logic (newEntity).  The
second cacheStore.Load inside the mutex re-reads the same cache in this
sequential model, so it repeats the miss established just above it. -/
def GetOrParse (cache : Cache) (dest : Dest) : GoOutcome × Cache × Nat :=
  match GetModelType dest with
  | none => (.panicked, cache, 0)
  | some modelType =>
    if modelType.isStructKind then
      match lookupCache cache modelType with
      | some v => (.ok v, cache, 0)
      | none =>
        match newEntity dest cache with
        | .error e => (.err e, cache, 1)
        | .ok entity => (.ok entity, storeCache cache modelType entity, 1)
    else (.err .ErrUnsupportedDataType, cache, 0)

/-!
Reflect-value model for the accessor closures built by
setupValuerAndSetter (field.go:68-151).
-/

/-- The fragment of Go types the accessor paths traverse: primitives,
pointers and structs. -/
inductive GoType where
  | tint
  | tstr
  | tptr (elem : GoType)
  | tstruct (fields : List GoType)
deriving Repr

def GoType.isStruct : GoType → Bool
  | .tstruct _ => true
  | _ => false

def GoType.isPtr : GoType → Bool
  | .tptr _ => true
  | _ => false

/-- Reflect values: integers, strings, nil pointers (carrying the
element type reflect would report), non-nil pointers, and structs. -/
inductive GoVal where
  | vint (n : Int)
  | vstr (s : String)
  | vnil (elem : GoType)
  | vptr (elem : GoType) (pointee : GoVal)
  | vstruct (fields : List GoVal)
deriving Repr

mutual

/-- The zero value of a type, as produced by reflect.New(t).Elem(). -/
def zeroVal : GoType → GoVal
  | .tint => .vint 0
  | .tstr => .vstr ""
  | .tptr e => .vnil e
  | .tstruct ts => .vstruct (zeroVals ts)

def zeroVals : List GoType → List GoVal
  | [] => []
  | t :: ts => zeroVal t :: zeroVals ts

end

mutual

/-- reflect.Value.IsZero: a pointer is zero iff nil, a struct is zero
iff all its fields are. -/
def isZero : GoVal → Bool
  | .vint n => n == 0
  | .vstr s => s == ""
  | .vnil _ => true
  | .vptr _ _ => false
  | .vstruct fs => allZero fs

def allZero : List GoVal → Bool
  | [] => true
  | v :: vs => isZero v && allZero vs

end

/-- reflect.Value.Field(i) for a non-negative i already converted to
Nat; a non-struct receiver or an out-of-range index panics (none). -/
def getF : GoVal → Nat → Option GoVal
  | .vstruct fs, i => fs.get? i
  | _, _ => none

/-- reflect.Value.Field(i) called with a raw (possibly negative) int,
as the length-1 and length-2 accessor branches do. -/
def getFInt (v : GoVal) (i : Int) : Option GoVal :=
  if 0 ≤ i then getF v i.toNat else none

/-- Writing through an addressable field slot: replace field i of a
struct.  Only used at positions where getF succeeded. -/
def setF : GoVal → Nat → GoVal → GoVal
  | .vstruct fs, i, w => .vstruct (fs.set i w)
  | v, _, _ => v

/-- reflect.Indirect: dereference one pointer level.  Indirect of a nil
pointer is the zero reflect.Value, on which every later Field call
panics; none models that. -/
def goIndirect : GoVal → Option GoVal
  | .vptr _ v => some v
  | .vnil _ => none
  | v => some v

/-- The length-1 ValueOf closure (field.go:72-76):
Indirect(value).Field(i), returning the interface value and IsZero. -/
def valueOfSingle (index0 : Int) (value : GoVal) : Option (Option GoVal × Bool) :=
  match goIndirect value with
  | none => none
  | some v =>
    match getFInt v index0 with
    | none => none
    | some fieldValue => some (some fieldValue, isZero fieldValue)

/-- The length-2 ValueOf closure (field.go:77-81):
Indirect(value).Field(i0).Field(i1). -/
def valueOfDouble (index0 index1 : Int) (value : GoVal) :
    Option (Option GoVal × Bool) :=
  match goIndirect value with
  | none => none
  | some v =>
    match getFInt v index0 with
    | none => none
    | some v1 =>
      match getFInt v1 index1 with
      | none => none
      | some fieldValue => some (some fieldValue, isZero fieldValue)

/-- The loop of the general ValueOf closure (field.go:82-104).  A
non-negative entry descends into the field; a negative entry reads the
field at -idx-1 and, when it is a pointer-to-struct, either continues
through a non-nil pointer or returns (nil, true) on a nil one; a
pointer to a non-struct also returns (nil, true); a non-pointer field
at a negative entry makes v.Type().Elem() panic. -/
def valueOfLoop : List Int → GoVal → Option (Option GoVal × Bool)
  | [], v => some (some v, isZero v)
  | idx :: rest, v =>
    if 0 ≤ idx then
      match getF v idx.toNat with
      | none => none
      | some fv => valueOfLoop rest fv
    else
      match getF v (-idx - 1).toNat with
      | none => none
      | some fv =>
        match fv with
        | .vnil _ => some (none, true)
        | .vptr e pv => if e.isStruct then valueOfLoop rest pv else some (none, true)
        | _ => none

/-- The general ValueOf closure: Indirect, then the loop. -/
def valueOfGeneral (index : List Int) (value : GoVal) :
    Option (Option GoVal × Bool) :=
  match goIndirect value with
  | none => none
  | some v => valueOfLoop index v

/-- The ValueOf dispatch of setupValuerAndSetter (field.go:71-105):
length 1, length 2 with non-negative first entry, else general. -/
def valueOf (index : List Int) (value : GoVal) : Option (Option GoVal × Bool) :=
  match index with
  | [i0] => valueOfSingle i0 value
  | [i0, i1] => if 0 ≤ i0 then valueOfDouble i0 i1 value else valueOfGeneral [i0, i1] value
  | _ => valueOfGeneral index value

/-- The length-1 ReflectValueOf closure (field.go:109-119): it returns
the field slot itself, never dereferencing or allocating; the Ptr and
non-Ptr sub-cases of the source have textually identical bodies.  The
result pairs the (unchanged) root with the value held by the returned
slot. -/
def reflectOfSingle (index0 : Int) (value : GoVal) : Option (GoVal × GoVal) :=
  match goIndirect value with
  | none => none
  | some v =>
    match getFInt v index0 with
    | none => none
    | some fieldValue => some (value, fieldValue)

/-- The length-2 ReflectValueOf closure (field.go:120-123). -/
def reflectOfDouble (index0 index1 : Int) (value : GoVal) :
    Option (GoVal × GoVal) :=
  match goIndirect value with
  | none => none
  | some v =>
    match getFInt v index0 with
    | none => none
    | some v1 =>
      match getFInt v1 index1 with
      | none => none
      | some fieldValue => some (value, fieldValue)

/-- The loop of the general ReflectValueOf closure (field.go:124-147),
as a recursion over the index list.  Input: the remaining entries and
the current (struct) value; output: the current value after the in-place
allocations, and the value held by the returned final location.  Each
iteration descends into the field (negative entries via -idx-1); a nil
pointer-to-struct field is allocated in place with v.Set(reflect.New(elem));
any pointer is dereferenced before continuing unless this was the last
entry. -/
def reflectLoop : List Int → GoVal → Option (GoVal × GoVal)
  | [], v => some (v, v)
  | fieldIdx :: rest, v =>
    let f : Nat := if 0 ≤ fieldIdx then fieldIdx.toNat else (-fieldIdx - 1).toNat
    match getF v f with
    | none => none
    | some fv =>
      match fv with
      | .vnil e =>
        if rest.isEmpty then
          if e.isStruct then
            let nfv := GoVal.vptr e (zeroVal e)
            some (setF v f nfv, nfv)
          else some (v, fv)
        else
          if e.isStruct then
            match reflectLoop rest (zeroVal e) with
            | none => none
            | some (pv, loc) => some (setF v f (.vptr e pv), loc)
          else none
      | .vptr e pv =>
        if rest.isEmpty then some (v, fv)
        else
          match reflectLoop rest pv with
          | none => none
          | some (pv2, loc) => some (setF v f (.vptr e pv2), loc)
      | fv2 =>
        if rest.isEmpty then some (v, fv2)
        else
          match reflectLoop rest fv2 with
          | none => none
          | some (fv3, loc) => some (setF v f fv3, loc)

/-- The general ReflectValueOf closure: Indirect, then the loop;
mutations performed through the indirected value are visible through
the original pointer. -/
def reflectOfGeneral (index : List Int) (value : GoVal) : Option (GoVal × GoVal) :=
  match value with
  | .vptr e pointee =>
    match reflectLoop index pointee with
    | none => none
    | some (pointee2, loc) => some (.vptr e pointee2, loc)
  | .vnil _ => none
  | v =>
    match reflectLoop index v with
    | none => none
    | some (v2, loc) => some (v2, loc)

/-- The ReflectValueOf dispatch of setupValuerAndSetter
(field.go:108-148): length 1 (Ptr and non-Ptr arms coincide), length 2
with non-negative first entry and a non-pointer field type, else
general. -/
def reflectOf (index : List Int) (fieldType : GoType) (value : GoVal) :
    Option (GoVal × GoVal) :=
  match index with
  | [i0] => reflectOfSingle i0 value
  | [i0, i1] =>
    if 0 ≤ i0 then
      if fieldType.isPtr then reflectOfGeneral [i0, i1] value
      else reflectOfDouble i0 i1 value
    else reflectOfGeneral [i0, i1] value
  | _ => reflectOfGeneral index value

/-- setupValuerAndSetter (field.go:68-151): the pair of closures. -/
def setupValuerAndSetter (index : List Int) (fieldType : GoType) :
    (GoVal → Option (Option GoVal × Bool)) × (GoVal → Option (GoVal × GoVal)) :=
  (valueOf index, reflectOf index fieldType)

/-- Writing a value through the location returned by the length-1
ReflectValueOf closure: that location is field index0 of the indirected
root, so Set(w) updates the root there (through the pointer when the
root was supplied as a pointer). -/
def writeSingle (index0 : Int) (value w : GoVal) : Option GoVal :=
  if 0 ≤ index0 then
    match value with
    | .vptr e pointee =>
      match getF pointee index0.toNat with
      | none => none
      | some _ => some (.vptr e (setF pointee index0.toNat w))
    | .vnil _ => none
    | v =>
      match getF v index0.toNat with
      | none => none
      | some _ => some (setF v index0.toNat w)
  else none

/-- Pure struct-only descent along non-negative entries, used to state
where a pointer-embedding link sits inside an instance: every step must
land on a struct field. -/
def structDescent : List Int → GoVal → Option GoVal
  | [], v => some v
  | i :: rest, v =>
    match v with
    | .vstruct fs =>
      match fs.get? i.toNat with
      | some (GoVal.vstruct gs) => structDescent rest (.vstruct gs)
      | _ => none
    | _ => none

/-! Concrete record types used to evaluate the resolver. -/

/-- Tag settings resolving to key n, not skipped, not inline. -/
def tagsOf (n : String) : StructTags := ⟨n, false, false⟩

/-- An embedded record type with leaf fields A and B. -/
def innerModel : GoModelType :=
  .strct "Inner" "jmongo/model" none
    [("A", tagsOf "a", .prim "string"), ("B", tagsOf "b", .prim "int")]

/-- A root record type with an identity field, an embedded record field
of type innerModel, and an own field C. -/
def rootModel : GoModelType :=
  .strct "Root" "jmongo/model" none
    [("Id", tagsOf "_id", .prim "ObjectID"),
     ("Inner", tagsOf "inner", innerModel),
     ("C", tagsOf "c", .prim "int")]

/-- A plain two-field record type. -/
def testModel : GoModelType :=
  .strct "Test" "jmongo/model" none
    [("Id", tagsOf "_id", .prim "ObjectID"), ("Name", tagsOf "name", .prim "string")]

/-- Another plain record type, used for the identity-recording check. -/
def userModel : GoModelType :=
  .strct "User" "jmongo/model" none
    [("Id", tagsOf "_id", .prim "ObjectID"), ("Age", tagsOf "age", .prim "int")]

/-- A record type for the cache round-trip check. -/
def probeModel : GoModelType :=
  .strct "Probe" "jmongo/model" none [("Id", tagsOf "_id", .prim "ObjectID")]

/-- The field descriptor the resolver builds for probeModel's only field. -/
def probeField : EntityField :=
  .mk "Id" "_id" true (tagsOf "_id") (.prim "ObjectID") 0 none

/-- The Entity the resolver builds for probeModel. -/
def probeEntity : Entity :=
  { Name := "Probe"
    ModelType := probeModel
    Collection := "probe"
    PrimaryField := none
    Fields := [probeField]
    AllFields := [probeField]
    FieldsByName := [("Id", none)]
    FieldsByDBName := [("_id", none)] }

/-- The Entity the resolver builds for rootModel: the embedded record
field stays a single entry and AllFields is the same list as Fields. -/
def rootEntity : Entity :=
  { Name := "Root"
    ModelType := rootModel
    Collection := "root"
    PrimaryField := none
    Fields :=
      [.mk "Id" "_id" true (tagsOf "_id") (.prim "ObjectID") 0 none,
       .mk "Inner" "inner" false (tagsOf "inner") innerModel 1 none,
       .mk "C" "c" false (tagsOf "c") (.prim "int") 2 none]
    AllFields :=
      [.mk "Id" "_id" true (tagsOf "_id") (.prim "ObjectID") 0 none,
       .mk "Inner" "inner" false (tagsOf "inner") innerModel 1 none,
       .mk "C" "c" false (tagsOf "c") (.prim "int") 2 none]
    FieldsByName := [("Id", none), ("Inner", none), ("C", none)]
    FieldsByDBName := [("_id", none), ("inner", none), ("c", none)] }

/-- The Entity the resolver builds for testModel: both lookup maps bind
their keys to the stored nil pointer. -/
def testEntity : Entity :=
  { Name := "Test"
    ModelType := testModel
    Collection := "test"
    PrimaryField := none
    Fields :=
      [.mk "Id" "_id" true (tagsOf "_id") (.prim "ObjectID") 0 none,
       .mk "Name" "name" false (tagsOf "name") (.prim "string") 1 none]
    AllFields :=
      [.mk "Id" "_id" true (tagsOf "_id") (.prim "ObjectID") 0 none,
       .mk "Name" "name" false (tagsOf "name") (.prim "string") 1 none]
    FieldsByName := [("Id", none), ("Name", none)]
    FieldsByDBName := [("_id", none), ("name", none)] }

/-- The Entity the resolver builds for userModel. -/
def userEntity : Entity :=
  { Name := "User"
    ModelType := userModel
    Collection := "user"
    PrimaryField := none
    Fields :=
      [.mk "Id" "_id" true (tagsOf "_id") (.prim "ObjectID") 0 none,
       .mk "Age" "age" false (tagsOf "age") (.prim "int") 1 none]
    AllFields :=
      [.mk "Id" "_id" true (tagsOf "_id") (.prim "ObjectID") 0 none,
       .mk "Age" "age" false (tagsOf "age") (.prim "int") 1 none]
    FieldsByName := [("Id", none), ("Age", none)]
    FieldsByDBName := [("_id", none), ("age", none)] }

/-!
Theorems.
-/

/-- Since newField never attaches a sub-entity (the inline construction
is commented out in the source), the allFields list produced by
extractFields coincides with the fields list. -/
theorem extractFieldsGo_snd_eq (index : List Int) :
    ∀ (mfs : List (String × StructTags × GoModelType)) (i : Nat),
    (extractFieldsGo index mfs i).2 = (extractFieldsGo index mfs i).1 := by
  intro mfs
  induction mfs with
  | nil => intro i; rfl
  | cons hd tl ih =>
    intro i
    obtain ⟨name, tags, ftype⟩ := hd
    cases hs : tags.Skip with
    | true => simp [extractFieldsGo, hs, ih]
    | false => simp [extractFieldsGo, hs, newField, EntityField.subFields, ih]

/-- Every field descriptor produced by extractFields has no sub-entity,
and takes its key name and identity flag from the parsed tag settings
of some non-skipped declared field. -/
theorem extractFieldsGo_fields_shape (index : List Int) :
    ∀ (mfs : List (String × StructTags × GoModelType)) (i : Nat)
      (ef : EntityField), ef ∈ (extractFieldsGo index mfs i).1 →
    ef.subFields = none ∧
    ∃ p, p ∈ mfs ∧ (p.2.1 : StructTags).Skip = false ∧
      ef.DBName = (p.2.1 : StructTags).Name ∧
      ef.Id = ((p.2.1 : StructTags).Name == "_id") := by
  intro mfs
  induction mfs with
  | nil => intro i ef h; simp [extractFieldsGo] at h
  | cons hd tl ih =>
    intro i ef h
    obtain ⟨name, tags, ftype⟩ := hd
    cases hs : tags.Skip with
    | true =>
      simp only [extractFieldsGo, hs, if_true] at h
      obtain ⟨h1, p, hp, hrest⟩ := ih (i + 1) ef h
      exact ⟨h1, p, List.mem_cons_of_mem _ hp, hrest⟩
    | false =>
      simp only [extractFieldsGo, hs, Bool.false_eq_true, if_false,
        newField, EntityField.subFields] at h
      rcases List.mem_cons.mp h with heq | hmem
      · subst heq
        refine ⟨rfl, (name, tags, ftype), List.mem_cons_self _ _, hs, rfl, rfl⟩
      · obtain ⟨h1, p, hp, hrest⟩ := ih (i + 1) ef hmem
        exact ⟨h1, p, List.mem_cons_of_mem _ hp, hrest⟩

/-- extractIdField finds nothing on a list of descriptors that carry
no sub-entity and no identity flag. -/
theorem extractIdField_eq_none :
    ∀ (l : List EntityField),
    (∀ f ∈ l, f.subFields = none ∧ f.Id = false) →
    extractIdField l = none := by
  intro l
  induction l with
  | nil => intro _; simp [extractIdField]
  | cons f rest ih =>
    intro h
    obtain ⟨n, d, b, t, ft, ix, s⟩ := f
    obtain ⟨hsub, hid⟩ := h _ (List.mem_cons_self _ _)
    cases s with
    | some sub => simp [EntityField.subFields] at hsub
    | none =>
      simp only [EntityField.Id] at hid
      subst hid
      simp only [extractIdField, EntityField.Id, Bool.false_eq_true, if_false]
      exact ih (fun g hg => h g (List.mem_cons_of_mem _ hg))

/-- Claim C9: for every field descriptor produced during resolution,
the identity flag is set exactly when the resolved document key name is
the literal string "_id", whatever the other tag settings are. -/
theorem c9_id_iff_dbname (mfs : List (String × StructTags × GoModelType))
    (index : List Int) (ef : EntityField)
    (h : ef ∈ (extractFields mfs index).1) :
    ef.Id = true ↔ ef.DBName = "_id" := by
  obtain ⟨-, p, -, -, hdb, hid⟩ := extractFieldsGo_fields_shape index mfs 0 ef h
  rw [hid, hdb]
  simp [beq_iff_eq]

/-- Witness for C9 at a concrete record type. -/
theorem c9_witness :
    probeField ∈ (extractFields [("Id", tagsOf "_id", .prim "ObjectID")] []).1 ∧
    (probeField.Id = true ↔ probeField.DBName = "_id") := by
  have hm : probeField ∈ (extractFields [("Id", tagsOf "_id", .prim "ObjectID")] []).1 :=
    List.mem_singleton.mpr rfl
  exact ⟨hm, c9_id_iff_dbname _ _ _ hm⟩

/-- Claim C1, evaluated at the failing input: resolving a root type
with an embedded record field yields an Entity whose AllFields is the
very same list as Fields - one entry for the embedding, none for its
leaf fields A and B - because the source never populates field.Entity
and assigns fields, not allFields, to AllFields. -/
theorem c1_embedding_not_flattened :
    newEntityByModelType rootModel [] [] = Except.ok rootEntity ∧
    rootEntity.AllFields = rootEntity.Fields ∧
    rootEntity.Fields.map EntityField.Name = ["Id", "Inner", "C"] ∧
    rootEntity.AllFields.map EntityField.Name = ["Id", "Inner", "C"] := by
  refine ⟨?_, rfl, rfl, rfl⟩
  simp [newEntityByModelType, rootModel, innerModel, rootEntity, lookupCache,
    extractFields, extractFieldsGo, newField, tagsOf, extractIdField,
    makeFieldsByNameAndByDBName, makeFieldsGo, mapLoadOrZero, mapStore,
    lowerFirst, EntityField.Id, EntityField.subFields, EntityField.Name,
    EntityField.DBName, unwrapModelType]

/-- Claim C2, evaluated at the failing input: the by-name and by-key
maps of a resolved Entity bind every key to the stored zero value (a
nil pointer, modeled as none) instead of the field descriptor, so
LookUpField returns nil for the resolved keys. -/
theorem c2_lookup_returns_stored_nil :
    newEntityByModelType testModel [] [] = Except.ok testEntity ∧
    testEntity.Fields.map EntityField.DBName = ["_id", "name"] ∧
    testEntity.FieldsByDBName = [("_id", none), ("name", none)] ∧
    testEntity.FieldsByName = [("Id", none), ("Name", none)] ∧
    testEntity.LookUpField "_id" = none ∧
    testEntity.LookUpField "Name" = none := by
  refine ⟨?_, rfl, rfl, rfl, rfl, rfl⟩
  simp [newEntityByModelType, testModel, testEntity, lookupCache,
    extractFields, extractFieldsGo, newField, tagsOf, extractIdField,
    makeFieldsByNameAndByDBName, makeFieldsGo, mapLoadOrZero, mapStore,
    lowerFirst, EntityField.Id, EntityField.subFields, EntityField.Name,
    EntityField.DBName, unwrapModelType]

/-- Claim C6, evaluated at the failing input: resolution locates an
identity field (extractIdField succeeds on AllFields) yet the returned
Entity records no PrimaryField, and PrimaryKeyDBName answers through
its default branch. -/
theorem c6_primary_field_not_recorded :
    newEntityByModelType userModel [] [] = Except.ok userEntity ∧
    (extractIdField userEntity.AllFields).isSome = true ∧
    userEntity.PrimaryField = none ∧
    userEntity.PrimaryKeyDBName = "_id" := by
  refine ⟨?_, ?_, rfl, rfl⟩
  · simp [newEntityByModelType, userModel, userEntity, lookupCache,
      extractFields, extractFieldsGo, newField, tagsOf, extractIdField,
      makeFieldsByNameAndByDBName, makeFieldsGo, mapLoadOrZero, mapStore,
      lowerFirst, EntityField.Id, EntityField.subFields, EntityField.Name,
      EntityField.DBName, unwrapModelType]
  · simp [userEntity, extractIdField, EntityField.Id, tagsOf]

/-- Storing an entity and looking up the same type hits the fresh
binding. -/
theorem lookupCache_storeCache (cache : Cache) (t : GoModelType) (e : Entity) :
    lookupCache (storeCache cache t e) t = some e := by
  simp [lookupCache, storeCache, List.find?]

/-- Claim C3: after a successful GetOrParse call the Entity sits in the
cache under the concrete type, repeating the call returns the very same
Entity without executing the resolution logic again and without
changing the cache, a successful call runs resolution at most once, and
a call that actually missed the cache ran it exactly once. -/
theorem c3_getOrParse_caches_and_idempotent (cache : Cache) (dest : Dest)
    (e : Entity) (c1 : Cache) (n1 : Nat)
    (h : GetOrParse cache dest = (.ok e, c1, n1)) :
    GetOrParse c1 dest = (.ok e, c1, 0) ∧
    n1 ≤ 1 ∧
    (∃ mt, GetModelType dest = some mt ∧ lookupCache c1 mt = some e) ∧
    (∀ mt, GetModelType dest = some mt → lookupCache cache mt = none → n1 = 1) := by
  cases dest with
  | none => simp [GetOrParse, GetModelType] at h
  | some t =>
    simp only [GetOrParse, GetModelType] at h ⊢
    cases hk : (unwrapModelType t).isStructKind with
    | false => simp only [hk, Bool.false_eq_true, if_false] at h; simp at h
    | true =>
      simp only [hk, if_true] at h
      cases hc : lookupCache cache (unwrapModelType t) with
      | some v =>
        rw [hc] at h
        simp only [Prod.mk.injEq, GoOutcome.ok.injEq] at h
        obtain ⟨rfl, rfl, rfl⟩ := h
        refine ⟨by simp [hk, hc], by omega, ⟨unwrapModelType t, rfl, hc⟩, ?_⟩
        intro mt hmt hnone
        injection hmt with hmt2
        rw [← hmt2, hc] at hnone
        cases hnone
      | none =>
        rw [hc] at h
        cases hn : newEntity (some t) cache with
        | error err => rw [hn] at h; simp at h
        | ok ent =>
          rw [hn] at h
          simp only [Prod.mk.injEq, GoOutcome.ok.injEq] at h
          obtain ⟨rfl, rfl, rfl⟩ := h
          exact ⟨by simp [hk, lookupCache_storeCache],
            by omega,
            ⟨unwrapModelType t, rfl, lookupCache_storeCache ..⟩,
            fun mt hmt hnone => rfl⟩

/-- Claim C4, evaluated at the three non-record input classes: the nil
interface makes GetOrParse panic inside GetModelType (instead of
returning the unsupported-type error), while a primitive and a slice of
primitive return the unsupported-type error without touching the
cache. -/
theorem c4_nil_panics_nonstruct_errs (cache : Cache) (p : String) :
    GetOrParse cache none = (.panicked, cache, 0) ∧
    GetOrParse cache (some (.prim p)) = (.err .ErrUnsupportedDataType, cache, 0) ∧
    GetOrParse cache (some (.slice (.prim p))) = (.err .ErrUnsupportedDataType, cache, 0) :=
  ⟨rfl, rfl, rfl⟩

/-- Witness for C3: resolving a concrete record type from the empty
cache stores its Entity and runs resolution once; the repeated call
returns the same Entity from the cache without resolving. -/
theorem c3_witness :
    GetOrParse [] (some probeModel) =
      (.ok probeEntity, [(("jmongo/model", "Probe"), probeEntity)], 1) ∧
    GetOrParse [(("jmongo/model", "Probe"), probeEntity)] (some probeModel) =
      (.ok probeEntity, [(("jmongo/model", "Probe"), probeEntity)], 0) := by
  have h1 : GetOrParse [] (some probeModel) =
      (.ok probeEntity, [(("jmongo/model", "Probe"), probeEntity)], 1) := by
    simp [GetOrParse, GetModelType, newEntity, newEntityByModelType, probeModel,
      probeEntity, probeField, lookupCache, storeCache, typeKey, extractFields,
      extractFieldsGo, newField, tagsOf, extractIdField, makeFieldsByNameAndByDBName,
      makeFieldsGo, mapLoadOrZero, mapStore, lowerFirst, EntityField.Id,
      EntityField.Name, EntityField.DBName, EntityField.subFields,
      unwrapModelType, GoModelType.isStructKind]
  exact ⟨h1, (c3_getOrParse_caches_and_idempotent [] (some probeModel) probeEntity _ 1 h1).1⟩

/-- Every GetOrParse call that does not return an Entity leaves the
cache exactly as it found it. -/
theorem getOrParse_error_leaves_cache (cache : Cache) (dest : Dest)
    (r : GoOutcome) (c2 : Cache) (n : Nat)
    (h : GetOrParse cache dest = (r, c2, n)) (hr : ∀ e, r ≠ .ok e) : c2 = cache := by
  cases dest with
  | none =>
    simp only [GetOrParse, GetModelType, Prod.mk.injEq] at h
    exact h.2.1.symm
  | some t =>
    simp only [GetOrParse, GetModelType] at h
    cases hk : (unwrapModelType t).isStructKind with
    | false =>
      simp only [hk, Bool.false_eq_true, if_false, Prod.mk.injEq] at h
      exact h.2.1.symm
    | true =>
      simp only [hk, if_true] at h
      cases hc : lookupCache cache (unwrapModelType t) with
      | some v =>
        rw [hc] at h
        simp only [Prod.mk.injEq] at h
        exact absurd h.1.symm (hr v)
      | none =>
        rw [hc] at h
        cases hn : newEntity (some t) cache with
        | error err =>
          rw [hn] at h
          simp only [Prod.mk.injEq] at h
          exact h.2.1.symm
        | ok ent =>
          rw [hn] at h
          simp only [Prod.mk.injEq] at h
          exact absurd h.1.symm (hr ent)

/-- When no non-skipped declared field resolves to the key "_id",
extractFields yields a flattened list in which extractIdField finds no
identity field. -/
theorem extractIdField_extractFields_none
    (mfs : List (String × StructTags × GoModelType)) (index : List Int)
    (h : ∀ p ∈ mfs, (p.2.1 : StructTags).Skip = false →
      (p.2.1 : StructTags).Name ≠ "_id") :
    extractIdField (extractFields mfs index).2 = none := by
  rw [extractFields, extractFieldsGo_snd_eq]
  apply extractIdField_eq_none
  intro f hf
  obtain ⟨h1, p, hp, hskip, hdb, hid⟩ := extractFieldsGo_fields_shape index mfs 0 f hf
  refine ⟨h1, ?_⟩
  rw [hid]
  simpa [beq_eq_false_iff_ne] using h p hp hskip

/-- Claim C5: a record type with no field resolving to the identity
key fails resolution through GetOrParse with the missing-identity
error, leaving the cache untouched (so a later call re-attempts), and
in general no failed call ever stores anything in the cache. -/
theorem c5_missing_id_not_cached :
    (∀ (nm pk : String) (ov : Option String)
       (mfs : List (String × StructTags × GoModelType)) (cache : Cache),
      (∀ p ∈ mfs, (p.2.1 : StructTags).Skip = false →
        (p.2.1 : StructTags).Name ≠ "_id") →
      lookupCache cache (.strct nm pk ov mfs) = none →
      GetOrParse cache (some (.strct nm pk ov mfs)) =
        (.err .ErrIdFieldDoesNotExists, cache, 1)) ∧
    (∀ (cache : Cache) (dest : Dest) (r : GoOutcome) (c2 : Cache) (n : Nat),
      GetOrParse cache dest = (r, c2, n) → (∀ e2, r ≠ .ok e2) → c2 = cache) := by
  constructor
  · intro nm pk ov mfs cache hno hcache
    have hid := extractIdField_extractFields_none mfs [] hno
    simp only [GetOrParse, GetModelType, newEntity, newEntityByModelType,
      unwrapModelType, GoModelType.isStructKind, if_true]
    rw [hcache, hid]
  · exact fun cache dest r c2 n h hr =>
      getOrParse_error_leaves_cache cache dest r c2 n h hr

/-- Witness for C5 at a concrete identity-less record type. -/
theorem c5_witness :
    GetOrParse []
      (some (.strct "NoId" "jmongo/model" none [("Age", tagsOf "age", .prim "int")])) =
      (.err .ErrIdFieldDoesNotExists, [], 1) := by
  refine c5_missing_id_not_cached.1 "NoId" "jmongo/model" none _ [] ?_ rfl
  intro p hp _
  simp only [List.mem_singleton] at hp
  subst hp
  simp [tagsOf]

/-- Setting a list element in range and reading the same position gives
the new element. -/
theorem get?_set_self {α : Type} :
    ∀ (l : List α) (n : Nat) (a : α), n < l.length →
    (l.set n a).get? n = some a := by
  intro l
  induction l with
  | nil => intro n a h; simp at h
  | cons x xs ih =>
    intro n a h
    cases n with
    | zero => rfl
    | succ m => simpa using ih m a (by simpa using h)

/-- A position holding an element is in range. -/
theorem get?_lt_length {α : Type} :
    ∀ (l : List α) (n : Nat) (a : α), l.get? n = some a → n < l.length := by
  intro l
  induction l with
  | nil => intro n a h; simp at h
  | cons x xs ih =>
    intro n a h
    cases n with
    | zero => simp
    | succ m => simpa using ih m a (by simpa using h)

/-- Claim C8: for a resolved field, whose index path is a single
non-negative entry, the storage location returned by ReflectValueOf is
the field slot itself (instance unchanged), and writing w through that
slot then reading through ValueOf returns w with the zero flag
reporting exactly whether w is a zero value. -/
theorem c8_roundtrip (i : Nat) (fieldType : GoType) (value w : GoVal)
    (fs : List GoVal)
    (hind : goIndirect value = some (.vstruct fs))
    (hlen : i < fs.length) :
    (∃ fv, fs.get? i = some fv ∧
      reflectOf [(i : Int)] fieldType value = some (value, fv)) ∧
    (∃ value2, writeSingle (i : Int) value w = some value2 ∧
      valueOf [(i : Int)] value2 = some (some w, isZero w)) := by
  obtain ⟨fv, hfv⟩ : ∃ fv, fs.get? i = some fv := by
    cases hg : fs.get? i with
    | none => rw [List.get?_eq_none] at hg; omega
    | some fv => exact ⟨fv, rfl⟩
  have hfv2 : fs[i]? = some fv := by rw [← List.get?_eq_getElem?]; exact hfv
  have hset : (fs.set i w)[i]? = some w := by
    rw [← List.get?_eq_getElem?]; exact get?_set_self fs i w hlen
  constructor
  · exact ⟨fv, hfv, by simp [reflectOf, reflectOfSingle, hind, getFInt, getF, hfv2]⟩
  · cases value with
    | vnil e => simp [goIndirect] at hind
    | vptr e pt =>
      injection hind with hpt
      subst hpt
      refine ⟨.vptr e (setF (.vstruct fs) i w), ?_, ?_⟩
      · simp [writeSingle, getF, hfv2]
      · simp [valueOf, valueOfSingle, goIndirect, setF, getFInt, getF, hset]
    | vint n => simp [goIndirect] at hind
    | vstr s => simp [goIndirect] at hind
    | vstruct gs =>
      have h2 : gs = fs := by
        injection hind with h
        injection h
      subst h2
      refine ⟨setF (.vstruct gs) i w, ?_, ?_⟩
      · simp [writeSingle, getF, hfv2]
      · simp [valueOf, valueOfSingle, goIndirect, setF, getFInt, getF, hset]

/-- Witness for C8: writing 7 into the only field of a one-field struct
and reading it back yields 7 with the zero flag false. -/
theorem c8_witness :
    (∃ fv, [GoVal.vint 5].get? 0 = some fv ∧
      reflectOf [(0 : Int)] .tint (.vstruct [.vint 5]) = some (.vstruct [.vint 5], fv)) ∧
    (∃ value2, writeSingle (0 : Int) (.vstruct [.vint 5]) (.vint 7) = some value2 ∧
      valueOf [(0 : Int)] value2 = some (some (.vint 7), false)) :=
  c8_roundtrip 0 .tint (.vstruct [.vint 5]) (.vint 7) [.vint 5] rfl (by decide)

/-- Claim C10: the single-entry ReflectValueOf closure built for a
pointer-typed top-level field returns the pointer slot itself - on an
instance whose field is nil it performs no dereference and no
allocation, leaves the instance unchanged, and yields the nil slot. -/
theorem c10_single_ptr_no_alloc (i : Nat) (e t : GoType) (value : GoVal)
    (fs : List GoVal)
    (hind : goIndirect value = some (.vstruct fs))
    (hf : fs.get? i = some (.vnil e)) :
    reflectOf [(i : Int)] (.tptr t) value = some (value, .vnil e) := by
  have hf2 : fs[i]? = some (.vnil e) := by rw [← List.get?_eq_getElem?]; exact hf
  simp [reflectOf, reflectOfSingle, hind, getFInt, getF, hf2]

/-- Witness for C10 on a one-field struct holding a nil pointer. -/
theorem c10_witness :
    reflectOf [(0 : Int)] (.tptr .tint) (.vstruct [.vnil .tint]) =
      some (.vstruct [.vnil .tint], .vnil .tint) :=
  c10_single_ptr_no_alloc 0 .tint .tint _ [.vnil .tint] rfl rfl

/-- Inversion of one structDescent step. -/
theorem structDescent_cons_inv (i : Int) (rest : List Int) (v r : GoVal)
    (h : structDescent (i :: rest) v = some r) :
    ∃ fs gs0, v = .vstruct fs ∧ fs.get? i.toNat = some (.vstruct gs0) ∧
      structDescent rest (.vstruct gs0) = some r := by
  cases v with
  | vstruct fs =>
    refine ⟨fs, ?_⟩
    cases hcur : fs[i.toNat]? with
    | none => simp [structDescent, hcur] at h
    | some fv =>
      cases fv with
      | vstruct gs0 =>
        exact ⟨gs0, rfl, by rw [List.get?_eq_getElem?, hcur],
          by simpa [structDescent, hcur] using h⟩
      | vint n => simp [structDescent, hcur] at h
      | vstr s => simp [structDescent, hcur] at h
      | vnil e => simp [structDescent, hcur] at h
      | vptr e p => simp [structDescent, hcur] at h
  | vint n => simp [structDescent] at h
  | vstr s => simp [structDescent] at h
  | vnil e => simp [structDescent] at h
  | vptr e p => simp [structDescent] at h

/-- A value that structDescent walks to a struct is itself a struct. -/
theorem structDescent_isStruct (l : List Int) (w : GoVal) (gs : List GoVal)
    (h : structDescent l w = some (.vstruct gs)) : ∃ ws, w = .vstruct ws := by
  cases l with
  | nil =>
    refine ⟨gs, ?_⟩
    simpa [structDescent] using h
  | cons i rest =>
    obtain ⟨fs, gs0, hv, -, -⟩ := structDescent_cons_inv i rest w _ h
    exact ⟨fs, hv⟩

/-- The general ValueOf loop, reaching a nil pointer-embedding link
after a struct-only prefix, reports (nil, true). -/
theorem valueOfLoop_nil_link (neg : Int) (post : List Int) (e : GoType) :
    ∀ (pre : List Int) (v : GoVal) (gs : List GoVal),
    (∀ i ∈ pre, 0 ≤ i) →
    structDescent pre v = some (.vstruct gs) →
    gs.get? (-neg - 1).toNat = some (.vnil e) →
    neg < 0 →
    valueOfLoop (pre ++ neg :: post) v = some (none, true) := by
  intro pre
  induction pre with
  | nil =>
    intro v gs hpre hdesc hget hneg
    have hv : v = .vstruct gs := by simpa [structDescent] using hdesc
    subst hv
    simp only [List.nil_append, valueOfLoop]
    rw [if_neg (by omega : ¬ (0 : Int) ≤ neg)]
    simp only [getF]
    rw [hget]
  | cons i rest ih =>
    intro v gs hpre hdesc hget hneg
    obtain ⟨fs, gs0, rfl, hcur, hdesc2⟩ := structDescent_cons_inv i rest v _ hdesc
    simp only [List.cons_append, valueOfLoop]
    rw [if_pos (hpre i (List.mem_cons_self _ _))]
    simp only [getF]
    rw [hcur]
    exact ih (.vstruct gs0) gs (fun j hj => hpre j (List.mem_cons_of_mem _ hj))
      hdesc2 hget hneg

/-- The general ReflectValueOf loop, reaching a nil pointer-embedding
link after a struct-only prefix with more path to walk, allocates the
link in place: it succeeds and the updated value holds a non-nil
pointer at the link position. -/
theorem reflectLoop_allocates_link (neg : Int) (post : List Int) (ts : List GoType) :
    ∀ (pre : List Int) (v : GoVal) (gs : List GoVal),
    (∀ i ∈ pre, 0 ≤ i) →
    structDescent pre v = some (.vstruct gs) →
    gs.get? (-neg - 1).toNat = some (.vnil (.tstruct ts)) →
    neg < 0 → post ≠ [] →
    (reflectLoop post (zeroVal (.tstruct ts))).isSome = true →
    ∃ v2 loc gs2 pv,
      reflectLoop (pre ++ neg :: post) v = some (v2, loc) ∧
      structDescent pre v2 = some (.vstruct gs2) ∧
      gs2.get? (-neg - 1).toNat = some (.vptr (.tstruct ts) pv) := by
  intro pre
  induction pre with
  | nil =>
    intro v gs hpre hdesc hget hneg hpost hsome
    have hv : v = .vstruct gs := by simpa [structDescent] using hdesc
    subst hv
    obtain ⟨pr, hpr⟩ := Option.isSome_iff_exists.mp hsome
    obtain ⟨pv, loc⟩ := pr
    have hlt : (-neg - 1).toNat < gs.length := get?_lt_length gs _ _ hget
    have hng : ¬ (0 : Int) ≤ neg := by omega
    have hne : post.isEmpty = false := by
      cases post with
      | nil => exact absurd rfl hpost
      | cons a b => rfl
    refine ⟨.vstruct (gs.set (-neg - 1).toNat (.vptr (.tstruct ts) pv)), loc,
      gs.set (-neg - 1).toNat (.vptr (.tstruct ts) pv), pv, ?_, rfl, ?_⟩
    · rw [List.nil_append, reflectLoop.eq_2]
      simp only [getF, hng, ite_false, if_false, hget, hne, GoType.isStruct,
        ite_true, hpr, setF, Bool.false_eq_true]
    · exact get?_set_self gs _ _ hlt
  | cons i rest ih =>
    intro v gs hpre hdesc hget hneg hpost hsome
    obtain ⟨fs, gs0, rfl, hcur, hdesc2⟩ := structDescent_cons_inv i rest v _ hdesc
    obtain ⟨v2, loc, gs2, pv, hrl, hdesc3, hget3⟩ :=
      ih (.vstruct gs0) gs (fun j hj => hpre j (List.mem_cons_of_mem _ hj))
        hdesc2 hget hneg hpost hsome
    obtain ⟨ws, rfl⟩ := structDescent_isStruct rest v2 gs2 hdesc3
    have hlt : i.toNat < fs.length := get?_lt_length fs _ _ hcur
    have hpos : (0 : Int) ≤ i := hpre i (List.mem_cons_self _ _)
    have hne : (rest ++ neg :: post).isEmpty = false := by
      cases rest with
      | nil => rfl
      | cons a b => rfl
    refine ⟨.vstruct (fs.set i.toNat (.vstruct ws)), loc, gs2, pv, ?_, ?_, hget3⟩
    · rw [List.cons_append, reflectLoop.eq_2]
      simp only [getF, hpos, ite_true, if_true, hcur, hne, hrl, setF,
        Bool.false_eq_true, if_false, ite_false]
    · have hset : (fs.set i.toNat (GoVal.vstruct ws))[i.toNat]? =
          some (.vstruct ws) := by
        rw [← List.get?_eq_getElem?]
        exact get?_set_self fs _ _ hlt
      simp [structDescent, hset, hdesc3]

/-- The ValueOf dispatch selects the general closure on every path of
length at least two whose length-2 instances start with a negative
entry. -/
theorem valueOf_eq_general (index : List Int) (value : GoVal)
    (h2 : 2 ≤ index.length)
    (hneg : ∀ i0 i1, index = [i0, i1] → i0 < 0) :
    valueOf index value = valueOfGeneral index value := by
  rcases index with _ | ⟨i0, _ | ⟨i1, _ | ⟨i2, rest⟩⟩⟩
  · simp at h2
  · simp at h2
  · have h0 : ¬ (0 : Int) ≤ i0 := by have := hneg i0 i1 rfl; omega
    simp [valueOf, h0]
  · simp [valueOf]

/-- The ReflectValueOf dispatch selects the general closure on every
path of length at least two whose length-2 instances start with a
negative entry. -/
theorem reflectOf_eq_general (index : List Int) (fieldType : GoType)
    (value : GoVal) (h2 : 2 ≤ index.length)
    (hneg : ∀ i0 i1, index = [i0, i1] → i0 < 0) :
    reflectOf index fieldType value = reflectOfGeneral index value := by
  rcases index with _ | ⟨i0, _ | ⟨i1, _ | ⟨i2, rest⟩⟩⟩
  · simp at h2
  · simp at h2
  · have h0 : ¬ (0 : Int) ≤ i0 := by have := hneg i0 i1 rfl; omega
    simp [reflectOf, h0]
  · simp [reflectOf]

/-- Claim C7: for the accessor pair built over an index path holding a
pointer-embedding (negative) entry, on an instance whose pointer link
at that entry is nil, the value accessor - which contains no Set call
and is embedded as a pure function - reports the field as absent with
the zero flag set, while the storage-location accessor allocates the
nil link in place: it succeeds, and the instance state it returns
holds a non-nil pointer at the link position, so subsequent reads see
a non-nil link. -/
theorem c7_nil_pointer_link (pre post : List Int) (neg : Int)
    (fieldType : GoType) (value root : GoVal) (gs : List GoVal)
    (ts : List GoType)
    (hpre : ∀ i ∈ pre, 0 ≤ i) (hneg : neg < 0) (hpost : post ≠ [])
    (hind : goIndirect value = some root)
    (hdesc : structDescent pre root = some (.vstruct gs))
    (hget : gs.get? (-neg - 1).toNat = some (.vnil (.tstruct ts)))
    (hsome : (reflectLoop post (zeroVal (.tstruct ts))).isSome = true) :
    valueOf (pre ++ neg :: post) value = some (none, true) ∧
    ∃ value2 loc root2 gs2 pv,
      reflectOf (pre ++ neg :: post) fieldType value = some (value2, loc) ∧
      goIndirect value2 = some root2 ∧
      structDescent pre root2 = some (.vstruct gs2) ∧
      gs2.get? (-neg - 1).toNat = some (.vptr (.tstruct ts) pv) := by
  obtain ⟨p0, ps, rfl⟩ := List.exists_cons_of_ne_nil hpost
  have hlen : 2 ≤ (pre ++ neg :: p0 :: ps).length := by simp; omega
  have hneg2 : ∀ i0 i1, pre ++ neg :: p0 :: ps = [i0, i1] → i0 < 0 := by
    intro i0 i1 heq
    cases pre with
    | nil =>
      rw [List.nil_append] at heq
      injection heq with ha hb
      omega
    | cons q pre2 =>
      rw [List.cons_append] at heq
      injection heq with ha hb
      have := congrArg List.length hb
      simp at this
      omega
  constructor
  · rw [valueOf_eq_general _ _ hlen hneg2]
    simp only [valueOfGeneral, hind]
    exact valueOfLoop_nil_link neg (p0 :: ps) (.tstruct ts) pre root gs
      hpre hdesc hget hneg
  · obtain ⟨v2, loc, gs2, pv, hrl, hd2, hg2⟩ :=
      reflectLoop_allocates_link neg (p0 :: ps) ts pre root gs hpre hdesc hget
        hneg (by simp) hsome
    rw [reflectOf_eq_general _ _ _ hlen hneg2]
    cases value with
    | vnil e => simp [goIndirect] at hind
    | vptr e pt =>
      have hpt : pt = root := by injection hind
      subst hpt
      refine ⟨.vptr e v2, loc, v2, gs2, pv, ?_, rfl, hd2, hg2⟩
      simp only [reflectOfGeneral, hrl]
    | vint n =>
      have h2 : GoVal.vint n = root := by injection hind
      obtain ⟨ws, hws⟩ := structDescent_isStruct pre root gs hdesc
      rw [← h2] at hws
      exact absurd hws (by simp)
    | vstr s =>
      have h2 : GoVal.vstr s = root := by injection hind
      obtain ⟨ws, hws⟩ := structDescent_isStruct pre root gs hdesc
      rw [← h2] at hws
      exact absurd hws (by simp)
    | vstruct fs0 =>
      have h2 : GoVal.vstruct fs0 = root := by injection hind
      subst h2
      obtain ⟨ws2, hws2⟩ := structDescent_isStruct pre v2 gs2 hd2
      refine ⟨v2, loc, v2, gs2, pv, ?_, ?_, hd2, hg2⟩
      · simp only [reflectOfGeneral, hrl]
      · rw [hws2]
        rfl

/-- Witness for C7: a one-field struct whose field is a nil pointer to
a one-int-field struct, accessed through the path [-1, 0]. -/
theorem c7_witness :
    valueOf [-1, 0] (.vstruct [.vnil (.tstruct [.tint])]) = some (none, true) ∧
    ∃ value2 loc root2 gs2 pv,
      reflectOf [-1, 0] .tint (.vstruct [.vnil (.tstruct [.tint])]) =
        some (value2, loc) ∧
      goIndirect value2 = some root2 ∧
      structDescent [] root2 = some (.vstruct gs2) ∧
      gs2.get? (-(-1 : Int) - 1).toNat = some (.vptr (.tstruct [.tint]) pv) :=
  c7_nil_pointer_link [] [0] (-1) .tint
    (.vstruct [.vnil (.tstruct [.tint])]) (.vstruct [.vnil (.tstruct [.tint])])
    [.vnil (.tstruct [.tint])] [.tint]
    (by simp) (by omega) (by simp) rfl rfl rfl rfl

end JMongo
